import Mathlib

/-!
Shallow embedding of `itk::TractDistanceFilter`
(src/Modules/DiffusionImaging/FiberTracking/Algorithms/itkTractDistanceFilter.cpp).

Curves (resampled fibers) are 3×N matrices of floats in the source; here a
`Curve` is the list of its columns, each column a 3D point over ℚ (exact
arithmetic stands in for IEEE float arithmetic; a separate `Flt` model below
captures NaN/∞ behaviour of float division where a claim depends on it).

A metric (`mitk::ClusteringMetric::CalculateDistance(f1, f2, flipped&)`) is
modelled as a function returning the distance together with the `flipped`
output flag; the filter ignores the flag, exactly as the source does.

The progress counter `disp` (a `boost::progress_display`) is threaded
explicitly through the loops; the ghost field `dispTrace` records the counter
value after each `++disp`, and `writeCounts` records, per outer index `i`,
how many times the result slot `i` was overwritten inside the search loop.
Both ghost fields are pure instrumentation: they alter no computed value.
-/

abbrev Point : Type := ℚ × ℚ × ℚ

abbrev Curve : Type := List Point

abbrev Metric : Type := Curve → Curve → ℚ × Bool

def zeroPoint : Point := ((0 : ℚ), (0 : ℚ), (0 : ℚ))

/-- Modelled from the spec: `mitk::FiberBundle::ResampleToNumPoints` is not
part of the sources under verification (only its caller `ResampleFibers` is).
Per §4.1 of the spec it redistributes the existing points of a tract by index
(not arc-length-exact) into exactly `targetPointCount` points when the tract
is longer than that, and leaves shorter tracts as they are (the spec's literal
check resamples a 1-point tract to length 3 and expects the single point
followed by zero columns, so short tracts keep their length). -/
def ResampleToNumPoints (n : ℕ) (tract : List Point) : List Point :=
  if tract.length ≤ n then tract
  else (List.range n).map (fun j => tract.getD (j * (tract.length - 1) / (n - 1)) zeroPoint)

/-- `vnl_matrix::set_column`: overwrite column `j` (no-op model for the
in-bounds pipeline; the checked variant below models the bounds contract). -/
def set_column (M : List Point) (j : ℕ) (p : Point) : List Point :=
  M.set j p

/-- `vnl_matrix::set_column` with its bounds contract made explicit: a write
at a column index at or beyond the matrix width is undefined behaviour in the
source, modelled as `none`. -/
def set_columnChecked (M : List Point) (j : ℕ) (p : Point) : Option (List Point) :=
  if j < M.length then some (M.set j p) else none

/-- The column-writing loop of `TractDistanceFilter::ResampleFibers`
(`for (int j=0; j<numPoints; j++) ... streamline.set_column(j, candV);`). -/
def writeCols : List Point → ℕ → List Point → List Point
  | M, _, [] => M
  | M, j, p :: ps => writeCols (set_column M j p) (j + 1) ps

/-- The same loop with every `set_column` bounds-checked. -/
def writeColsChecked : List Point → ℕ → List Point → Option (List Point)
  | M, _, [] => some M
  | M, j, p :: ps =>
    match set_columnChecked M j p with
    | none => none
    | some M2 => writeColsChecked M2 (j + 1) ps

/-- One iteration of `ResampleFibers`' cell loop: allocate the 3×`n` streamline
matrix, `fill(0.0)`, then copy the cell's points column by column. -/
def streamlineOf (n : ℕ) (pts : List Point) : List Point :=
  writeCols (List.replicate n zeroPoint) 0 pts

/-- `TractDistanceFilter::ResampleFibers`: deep-copy the bundle, resample it
to `m_NumPoints` and turn every cell into a zero-filled fixed-width matrix
holding its points. (The deep copy and the temporary `cout` redirection have
no observable effect in a pure model.) -/
def ResampleFibers (numPoints : ℕ) (tractogram : List (List Point)) : List Curve :=
  tractogram.map (fun t => streamlineOf numPoints (ResampleToNumPoints numPoints t))

/-- `ResampleFibers` with the column writes bounds-checked. -/
def ResampleFibersChecked (numPoints : ℕ) : List (List Point) → Option (List Curve)
  | [] => some []
  | t :: ts =>
    match writeColsChecked (List.replicate numPoints zeroPoint) 0
        (ResampleToNumPoints numPoints t), ResampleFibersChecked numPoints ts with
    | some c, some cs => some (c :: cs)
    | _, _ => none

/-- Innermost loop of `TractDistanceFilter::calc_distance`
(`for (auto f2 : T2) { ++disp; ... if (d < min_d) min_d = d; }`).
Returns the running minimum, the progress counter and the counter trace. -/
def innerLoop (metric : Metric) (f1 : Curve) :
    List Curve → ℚ → ℕ → List ℕ → ℚ × ℕ × List ℕ
  | [], min_d, disp, tr => (min_d, disp, tr)
  | f2 :: T2, min_d, disp, tr =>
    let disp2 := disp + 1
    let d := (metric f1 f2).1
    innerLoop metric f1 T2 (if d < min_d then d else min_d) disp2 (tr ++ [disp2])

/-- Middle loop of `calc_distance` (`for (auto f1 : T1) { float min_d = 99999;
... distance += min_d; }`). -/
def midLoop (metric : Metric) :
    List Curve → List Curve → ℚ → ℕ → List ℕ → ℚ × ℕ × List ℕ
  | [], _, distance, disp, tr => (distance, disp, tr)
  | f1 :: T1, T2, distance, disp, tr =>
    midLoop metric T1 T2 (distance + (innerLoop metric f1 T2 99999 disp tr).1)
      (innerLoop metric f1 T2 99999 disp tr).2.1 (innerLoop metric f1 T2 99999 disp tr).2.2

/-- Outer metric loop of `calc_distance` (`for (auto metric : m_Metrics)`). -/
def metricLoop :
    List Metric → List Curve → List Curve → ℚ → ℕ → List ℕ → ℚ × ℕ × List ℕ
  | [], _, _, distance, disp, tr => (distance, disp, tr)
  | m :: ms, T1, T2, distance, disp, tr =>
    metricLoop ms T1 T2 (midLoop m T1 T2 distance disp tr).1
      (midLoop m T1 T2 distance disp tr).2.1 (midLoop m T1 T2 distance disp tr).2.2

/-- `TractDistanceFilter::calc_distance`, with the progress counter threaded
through: accumulate the capped nearest-neighbour sums over all metrics, then
`distance /= (T1.size() * m_Metrics.size())`. -/
def calc_distanceD (metrics : List Metric) (T1 T2 : List Curve)
    (disp : ℕ) (tr : List ℕ) : ℚ × ℕ × List ℕ :=
  ((metricLoop metrics T1 T2 0 disp tr).1 / ((T1.length : ℚ) * (metrics.length : ℚ)),
   (metricLoop metrics T1 T2 0 disp tr).2.1, (metricLoop metrics T1 T2 0 disp tr).2.2)

/-- The value computed by `calc_distance` (the progress counter does not
influence it). -/
def calcDist (metrics : List Metric) (T1 T2 : List Curve) : ℚ :=
  (calc_distanceD metrics T1 T2 0 []).1

/-- Inner search loop of `TractDistanceFilter::GenerateData` over `j`
(`if (d < m_Distances[i]) { m_Distances[i] = d; m_Indices[i] = j; }`),
additionally counting how often the result slot is overwritten.
Returns (distance slot, index slot, overwrite count, disp, trace). -/
def rowLoop (metrics : List Metric) (tracto1 : List Curve) :
    List (List Curve) → ℕ → ℚ → ℕ → ℕ → ℕ → List ℕ → ℚ × ℕ × ℕ × ℕ × List ℕ
  | [], _, dist, idx, w, disp, tr => (dist, idx, w, disp, tr)
  | tracto2 :: rest, j, dist, idx, w, disp, tr =>
    if (calc_distanceD metrics tracto1 tracto2 disp tr).1 < dist then
      rowLoop metrics tracto1 rest (j + 1) (calc_distanceD metrics tracto1 tracto2 disp tr).1 j
        (w + 1) (calc_distanceD metrics tracto1 tracto2 disp tr).2.1
        (calc_distanceD metrics tracto1 tracto2 disp tr).2.2
    else
      rowLoop metrics tracto1 rest (j + 1) dist idx w
        (calc_distanceD metrics tracto1 tracto2 disp tr).2.1
        (calc_distanceD metrics tracto1 tracto2 disp tr).2.2

/-- The uninstrumented content of `rowLoop`, operating on the list of
aggregate distances: the strict-less update fold of `GenerateData`. -/
def rowGo : List ℚ → ℕ → ℚ → ℕ → ℕ → ℚ × ℕ × ℕ
  | [], _, dist, idx, w => (dist, idx, w)
  | d :: ds, j, dist, idx, w =>
    if d < dist then rowGo ds (j + 1) d j (w + 1)
    else rowGo ds (j + 1) dist idx w

/-- Outer loop of `GenerateData` over `i`: each iteration initializes its
distance slot to `99999` (its index slot holds the value-initialized `0` from
`m_Indices.resize`) and runs the inner search. -/
def outerLoop (metrics : List Metric) :
    List (List Curve) → List (List Curve) → ℕ → List ℕ →
      List ℕ × List ℚ × List ℕ × ℕ × List ℕ
  | [], _, disp, tr => ([], [], [], disp, tr)
  | tracto1 :: rest, T2, disp, tr =>
    ((rowLoop metrics tracto1 T2 0 99999 0 0 disp tr).2.1
        :: (outerLoop metrics rest T2 (rowLoop metrics tracto1 T2 0 99999 0 0 disp tr).2.2.2.1
              (rowLoop metrics tracto1 T2 0 99999 0 0 disp tr).2.2.2.2).1,
     (rowLoop metrics tracto1 T2 0 99999 0 0 disp tr).1
        :: (outerLoop metrics rest T2 (rowLoop metrics tracto1 T2 0 99999 0 0 disp tr).2.2.2.1
              (rowLoop metrics tracto1 T2 0 99999 0 0 disp tr).2.2.2.2).2.1,
     (rowLoop metrics tracto1 T2 0 99999 0 0 disp tr).2.2.1
        :: (outerLoop metrics rest T2 (rowLoop metrics tracto1 T2 0 99999 0 0 disp tr).2.2.2.1
              (rowLoop metrics tracto1 T2 0 99999 0 0 disp tr).2.2.2.2).2.2.1,
     (outerLoop metrics rest T2 (rowLoop metrics tracto1 T2 0 99999 0 0 disp tr).2.2.2.1
        (rowLoop metrics tracto1 T2 0 99999 0 0 disp tr).2.2.2.2).2.2.2.1,
     (outerLoop metrics rest T2 (rowLoop metrics tracto1 T2 0 99999 0 0 disp tr).2.2.2.1
        (rowLoop metrics tracto1 T2 0 99999 0 0 disp tr).2.2.2.2).2.2.2.2)

/-- State of an `itk::TractDistanceFilter` object (fields keep their source
names; `dispTotal` is the bound passed to `disp.restart`; `dispTrace` and
`writeCounts` are ghost instrumentation). -/
structure TractDistanceFilter where
  m_NumPoints : ℕ
  m_Metrics : List Metric
  m_Tracts1 : List (List (List Point))
  m_Tracts2 : List (List (List Point))
  m_Indices : List ℕ
  m_Distances : List ℚ
  disp : ℕ
  dispTotal : ℕ
  dispTrace : List ℕ
  writeCounts : List ℕ

/-- `TractDistanceFilter::GenerateData`. Returns the state of the object when
the call finishes together with the thrown message, if any (`mitkThrow() <<
"No metric selected!"` aborts before anything is touched, so on that path the
state is returned unchanged). -/
def GenerateData (s : TractDistanceFilter) : TractDistanceFilter × Option String :=
  if s.m_Metrics.isEmpty then
    (s, some "No metric selected!")
  else
    let T1 := s.m_Tracts1.map (ResampleFibers s.m_NumPoints)
    let T2 := s.m_Tracts2.map (ResampleFibers s.m_NumPoints)
    let num_fibs1 := (T1.map List.length).sum
    let num_fibs2 := (T2.map List.length).sum
    let total := s.m_Metrics.length * num_fibs1 * num_fibs2
    ({ s with m_Indices := (outerLoop s.m_Metrics T1 T2 0 []).1,
              m_Distances := (outerLoop s.m_Metrics T1 T2 0 []).2.1,
              writeCounts := (outerLoop s.m_Metrics T1 T2 0 []).2.2.1,
              disp := (outerLoop s.m_Metrics T1 T2 0 []).2.2.2.1,
              dispTotal := total,
              dispTrace := (outerLoop s.m_Metrics T1 T2 0 []).2.2.2.2 }, none)

/-- Minimum of a list of rationals (0 on the empty list); spec-side helper
used to compare `calc_distance` against the spec's pseudocode. -/
def minQ : List ℚ → ℚ
  | [] => 0
  | d :: ds => ds.foldl min d

/-- The aggregate of §4.2 of the spec, written from the spec's pseudocode
(`minDist = +INF` then fold `min` over `curvesB`, which on the non-empty
`curvesB` the spec quantifies over is the true minimum `minQ`): a second,
spec-side definition to be compared with `calc_distance` from the source. -/
def specAggregate (metrics : List Metric) (A B : List Curve) : ℚ :=
  ((metrics.map (fun m =>
    (A.map (fun a => minQ (B.map (fun b => (m a b).1)))).sum)).sum)
    / ((A.length : ℚ) * (metrics.length : ℚ))

/-- Number of strict improvements of the running minimum (prefix-min with
initial value `dist0`) along a list, expressed positionally; spec-side
characterization of how often a result slot is overwritten. -/
def strictImprovements (dist0 : ℚ) (ds : List ℚ) : ℕ :=
  (List.range ds.length).countP
    (fun j => decide (ds.getD j 0 < List.foldl min dist0 (ds.take j)))

/-- Float model for the claims that depend on IEEE-754 behaviour of the
source's `float` arithmetic: exact rationals extended with NaN and the two
infinities (signed zeros are collapsed; rounding is exact). -/
inductive Flt : Type where
  | nan : Flt
  | pinf : Flt
  | ninf : Flt
  | val (q : ℚ) : Flt
deriving DecidableEq

def Flt.add : Flt → Flt → Flt
  | nan, _ => nan
  | _, nan => nan
  | pinf, ninf => nan
  | ninf, pinf => nan
  | pinf, _ => pinf
  | _, pinf => pinf
  | ninf, _ => ninf
  | _, ninf => ninf
  | val a, val b => val (a + b)

def Flt.lt : Flt → Flt → Bool
  | nan, _ => false
  | _, nan => false
  | pinf, _ => false
  | _, pinf => true
  | ninf, ninf => false
  | ninf, _ => true
  | _, ninf => false
  | val a, val b => decide (a < b)

def Flt.div : Flt → Flt → Flt
  | nan, _ => nan
  | _, nan => nan
  | pinf, pinf => nan
  | pinf, ninf => nan
  | ninf, pinf => nan
  | ninf, ninf => nan
  | pinf, val b => if b < 0 then ninf else pinf
  | ninf, val b => if b < 0 then pinf else ninf
  | val _, pinf => val 0
  | val _, ninf => val 0
  | val a, val b =>
    if b = 0 then (if a = 0 then nan else if a < 0 then ninf else pinf)
    else val (a / b)

abbrev MetricF : Type := Curve → Curve → Flt × Bool

/-- `calc_distance`'s innermost loop over the `Flt` model. -/
def innerLoopF (metric : MetricF) (f1 : Curve) : List Curve → Flt → Flt
  | [], min_d => min_d
  | f2 :: T2, min_d =>
    let d := (metric f1 f2).1
    innerLoopF metric f1 T2 (if d.lt min_d then d else min_d)

/-- `calc_distance`'s middle loop over the `Flt` model. -/
def midLoopF (metric : MetricF) : List Curve → List Curve → Flt → Flt
  | [], _, distance => distance
  | f1 :: T1, T2, distance =>
    midLoopF metric T1 T2 (distance.add (innerLoopF metric f1 T2 (.val 99999)))

/-- `calc_distance`'s metric loop over the `Flt` model. -/
def metricLoopF : List MetricF → List Curve → List Curve → Flt → Flt
  | [], _, _, distance => distance
  | m :: ms, T1, T2, distance => metricLoopF ms T1 T2 (midLoopF m T1 T2 distance)

/-- `TractDistanceFilter::calc_distance` over the `Flt` model. -/
def calc_distanceF (metrics : List MetricF) (T1 T2 : List Curve) : Flt :=
  (metricLoopF metrics T1 T2 (.val 0)).div
    (.val ((T1.length : ℚ) * (metrics.length : ℚ)))

/-- `GenerateData`'s inner search loop over `j` in the `Flt` model
(`m_Distances[i]` starts at `99999`, `m_Indices[i]` at the value-initialized
`0`). -/
def rowLoopF (metrics : List MetricF) (tracto1 : List Curve) :
    List (List Curve) → ℕ → Flt → ℕ → Flt × ℕ
  | [], _, dist, idx => (dist, idx)
  | tracto2 :: rest, j, dist, idx =>
    if (calc_distanceF metrics tracto1 tracto2).lt dist then
      rowLoopF metrics tracto1 rest (j + 1) (calc_distanceF metrics tracto1 tracto2) j
    else rowLoopF metrics tracto1 rest (j + 1) dist idx

/-- Index of the first occurrence of `q` in a list (spec-side helper: the
first sequence position attaining the minimum). -/
def firstIdxOf (q : ℚ) : List ℚ → ℕ
  | [] => 0
  | d :: ds => if d = q then 0 else firstIdxOf q ds + 1

/-- Example metric returning the constant 100000 (above the 99999 cap). -/
def mBig : Metric := fun _ _ => (100000, false)

/-- Example metric returning the constant 123456 (above the 99999 cap). -/
def mBig2 : Metric := fun _ _ => (123456, false)

/-- Example metric: squared difference of the two curves' point counts. -/
def mLen : Metric := fun x y => (((x.length : ℚ) - (y.length : ℚ)) ^ 2, false)

/-- Example metric: `10` minus the first coordinate of the head of the second
curve (used to produce a strictly decreasing distance sequence). -/
def mHead : Metric := fun _ y => (10 - (y.headD zeroPoint).1, false)

/-- Example single-point curve. -/
def cZero : Curve := [zeroPoint]

/-- Example filter whose metric set is empty (its result fields hold junk so
that "left untouched" is observable). -/
def sEmptyMetrics : TractDistanceFilter where
  m_NumPoints := 12
  m_Metrics := []
  m_Tracts1 := [[[((1:ℚ), (2:ℚ), (3:ℚ))]]]
  m_Tracts2 := [[[((4:ℚ), (5:ℚ), (6:ℚ))]]]
  m_Indices := [7]
  m_Distances := [5]
  disp := 3
  dispTotal := 9
  dispTrace := [1, 2, 3]
  writeCounts := [4]

/-- Example filter: one metric (`mHead`), one single-tract bundle against two
single-tract bundles whose aggregate distances are 5 and then 3, so the
result slot of bundle 0 is overwritten twice. -/
def sTwoWrites : TractDistanceFilter where
  m_NumPoints := 1
  m_Metrics := [mHead]
  m_Tracts1 := [[[((0:ℚ), (0:ℚ), (0:ℚ))]]]
  m_Tracts2 := [[[((5:ℚ), (5:ℚ), (5:ℚ))]], [[((7:ℚ), (7:ℚ), (7:ℚ))]]]
  m_Indices := []
  m_Distances := []
  disp := 0
  dispTotal := 0
  dispTrace := []
  writeCounts := []

/-- Example filter with one constant metric and one bundle on each side, for
exercising the progress counter. -/
def sProgress : TractDistanceFilter where
  m_NumPoints := 2
  m_Metrics := [fun _ _ => ((1 : ℚ), false)]
  m_Tracts1 := [[[((0:ℚ), (0:ℚ), (0:ℚ)), ((1:ℚ), (0:ℚ), (0:ℚ))]]]
  m_Tracts2 := [[[((5:ℚ), (5:ℚ), (5:ℚ)), ((6:ℚ), (5:ℚ), (5:ℚ))]]]
  m_Indices := []
  m_Distances := []
  disp := 0
  dispTotal := 0
  dispTrace := []
  writeCounts := []

/-! ### Helper lemmas -/

lemma step_min (a d : ℚ) : (if d < a then d else a) = min a d := by
  split
  · exact (min_eq_right (le_of_lt ‹_›)).symm
  · exact (min_eq_left (le_of_not_lt ‹_›)).symm

lemma foldl_min_min (l : List ℚ) : ∀ a b : ℚ,
    List.foldl min (min a b) l = min a (List.foldl min b l) := by
  induction l with
  | nil => intro a b; rfl
  | cons c l ih =>
    intro a b
    simp only [List.foldl_cons]
    rw [min_assoc, ih]

lemma foldl_min_le_init (l : List ℚ) : ∀ a : ℚ, List.foldl min a l ≤ a := by
  induction l with
  | nil => intro a; exact le_rfl
  | cons c l ih =>
    intro a
    simp only [List.foldl_cons]
    exact le_trans (ih (min a c)) (min_le_left a c)

lemma foldl_min_le_mem (l : List ℚ) : ∀ a x : ℚ, x ∈ l → List.foldl min a l ≤ x := by
  induction l with
  | nil => intro a x hx; cases hx
  | cons c l ih =>
    intro a x hx
    simp only [List.foldl_cons]
    rcases List.mem_cons.mp hx with h | h
    · subst h
      exact le_trans (foldl_min_le_init l (min a x)) (min_le_right a x)
    · exact ih (min a c) x h

lemma foldl_min_eq_init_or_mem (l : List ℚ) : ∀ a : ℚ,
    List.foldl min a l = a ∨ List.foldl min a l ∈ l := by
  induction l with
  | nil => intro a; exact Or.inl rfl
  | cons c l ih =>
    intro a
    simp only [List.foldl_cons]
    rcases ih (min a c) with h | h
    · rw [h]
      rcases min_choice a c with h2 | h2
      · exact Or.inl h2
      · right
        rw [h2]
        exact List.mem_cons_self c l
    · exact Or.inr (List.mem_cons_of_mem c h)

lemma foldl_min_eq_minQ (l : List ℚ) (h : l ≠ []) (a : ℚ) :
    List.foldl min a l = min a (minQ l) := by
  cases l with
  | nil => exact absurd rfl h
  | cons d ds =>
    simp only [List.foldl_cons, minQ]
    rw [← foldl_min_min]

lemma minQ_mem (l : List ℚ) (h : l ≠ []) : minQ l ∈ l := by
  cases l with
  | nil => exact absurd rfl h
  | cons d ds =>
    simp only [minQ]
    rcases foldl_min_eq_init_or_mem ds d with h2 | h2
    · rw [h2]; exact List.mem_cons_self d ds
    · exact List.mem_cons_of_mem d h2

lemma range'_chunk (s a b : ℕ) :
    List.range' s a ++ List.range' (s + a) b = List.range' s (a + b) := by
  have h := List.range'_append s a b 1
  rw [one_mul] at h
  rw [Nat.add_comm a b]
  exact h

lemma range'_chunk' (disp a b : ℕ) :
    List.range' (disp + 1) a ++ List.range' (disp + a + 1) b
      = List.range' (disp + 1) (a + b) := by
  have h : disp + a + 1 = (disp + 1) + a := by omega
  rw [h, range'_chunk]

lemma innerLoop_eq (m : Metric) (f1 : Curve) (T2 : List Curve) : ∀ (a : ℚ) (disp : ℕ) (tr : List ℕ),
    innerLoop m f1 T2 a disp tr =
      (List.foldl min a (T2.map (fun f2 => (m f1 f2).1)),
       disp + T2.length,
       tr ++ List.range' (disp + 1) T2.length) := by
  induction T2 with
  | nil => intro a disp tr; simp [innerLoop]
  | cons f2 T2 ih =>
    intro a disp tr
    rw [innerLoop, ih]
    simp only [List.map_cons, List.foldl_cons, List.length_cons, Prod.mk.injEq]
    refine ⟨by rw [step_min], by omega, ?_⟩
    rw [List.range'_succ, List.append_assoc]
    simp [Nat.add_assoc]

lemma midLoop_eq (m : Metric) (T1 : List Curve) (T2 : List Curve) :
    ∀ (acc : ℚ) (disp : ℕ) (tr : List ℕ),
    midLoop m T1 T2 acc disp tr =
      (acc + (T1.map (fun f1 =>
          List.foldl min 99999 (T2.map (fun f2 => (m f1 f2).1)))).sum,
       disp + T1.length * T2.length,
       tr ++ List.range' (disp + 1) (T1.length * T2.length)) := by
  induction T1 with
  | nil => intro acc disp tr; simp [midLoop]
  | cons f1 T1 ih =>
    intro acc disp tr
    rw [midLoop, innerLoop_eq, ih]
    simp only [List.map_cons, List.sum_cons, List.length_cons, Prod.mk.injEq]
    refine ⟨by ring, by ring, ?_⟩
    rw [List.append_assoc, range'_chunk']
    congr 2
    ring

lemma metricLoop_eq (ms : List Metric) (T1 T2 : List Curve) :
    ∀ (acc : ℚ) (disp : ℕ) (tr : List ℕ),
    metricLoop ms T1 T2 acc disp tr =
      (acc + (ms.map (fun m => (T1.map (fun f1 =>
          List.foldl min 99999 (T2.map (fun f2 => (m f1 f2).1)))).sum)).sum,
       disp + ms.length * (T1.length * T2.length),
       tr ++ List.range' (disp + 1) (ms.length * (T1.length * T2.length))) := by
  induction ms with
  | nil => intro acc disp tr; simp [metricLoop]
  | cons m ms ih =>
    intro acc disp tr
    rw [metricLoop, midLoop_eq, ih]
    simp only [List.map_cons, List.sum_cons, List.length_cons, Prod.mk.injEq]
    refine ⟨by ring, by ring, ?_⟩
    rw [List.append_assoc, range'_chunk']
    congr 2
    ring

lemma calc_distanceD_eq (ms : List Metric) (T1 T2 : List Curve) (disp : ℕ) (tr : List ℕ) :
    calc_distanceD ms T1 T2 disp tr =
      ((ms.map (fun m => (T1.map (fun f1 =>
          List.foldl min 99999 (T2.map (fun f2 => (m f1 f2).1)))).sum)).sum
         / ((T1.length : ℚ) * (ms.length : ℚ)),
       disp + ms.length * (T1.length * T2.length),
       tr ++ List.range' (disp + 1) (ms.length * (T1.length * T2.length))) := by
  rw [calc_distanceD, metricLoop_eq]
  simp

lemma calcDist_eq (ms : List Metric) (T1 T2 : List Curve) :
    calcDist ms T1 T2 =
      (ms.map (fun m => (T1.map (fun f1 =>
          List.foldl min 99999 (T2.map (fun f2 => (m f1 f2).1)))).sum)).sum
        / ((T1.length : ℚ) * (ms.length : ℚ)) := by
  rw [calcDist, calc_distanceD_eq]

lemma calc_distanceD_fst (ms : List Metric) (T1 T2 : List Curve) (disp : ℕ) (tr : List ℕ) :
    (calc_distanceD ms T1 T2 disp tr).1 = calcDist ms T1 T2 := by
  rw [calc_distanceD_eq, calcDist_eq]

lemma calcDist_le (ms : List Metric) (T1 T2 : List Curve) :
    calcDist ms T1 T2 ≤ 99999 := by
  rw [calcDist_eq]
  by_cases hT : T1 = []
  · subst hT; simp
  by_cases hm : ms = []
  · subst hm; simp
  have hTpos : 0 < (T1.length : ℚ) := by
    exact_mod_cast List.length_pos.mpr hT
  have hmpos : 0 < (ms.length : ℚ) := by
    exact_mod_cast List.length_pos.mpr hm
  rw [div_le_iff₀ (mul_pos hTpos hmpos)]
  have hin : ∀ m : Metric,
      (T1.map (fun f1 =>
          List.foldl min 99999 (T2.map (fun f2 => (m f1 f2).1)))).sum
        ≤ (T1.length : ℚ) * 99999 := by
    intro m
    have h := List.sum_le_card_nsmul
      (T1.map (fun f1 => List.foldl min 99999 (T2.map (fun f2 => (m f1 f2).1))))
      99999 ?_
    · simpa [nsmul_eq_mul] using h
    · intro x hx
      rcases List.mem_map.mp hx with ⟨f1, _, rfl⟩
      exact foldl_min_le_init _ _
  have houter :
      (ms.map (fun m => (T1.map (fun f1 =>
          List.foldl min 99999 (T2.map (fun f2 => (m f1 f2).1)))).sum)).sum
        ≤ (ms.length : ℚ) * ((T1.length : ℚ) * 99999) := by
    have h := List.sum_le_card_nsmul
      (ms.map (fun m => (T1.map (fun f1 =>
          List.foldl min 99999 (T2.map (fun f2 => (m f1 f2).1)))).sum))
      ((T1.length : ℚ) * 99999) ?_
    · simpa [nsmul_eq_mul] using h
    · intro x hx
      rcases List.mem_map.mp hx with ⟨m, _, rfl⟩
      exact hin m
  exact le_trans houter (le_of_eq (by ring))

lemma strictImprovements_nil (dist : ℚ) : strictImprovements dist [] = 0 := by
  simp [strictImprovements]

lemma strictImprovements_cons (dist d : ℚ) (ds : List ℚ) :
    strictImprovements dist (d :: ds) =
      (if d < dist then 1 else 0) + strictImprovements (min dist d) ds := by
  unfold strictImprovements
  rw [List.length_cons, List.range_succ_eq_map, List.countP_cons, List.countP_map]
  have h0 : (decide ((d :: ds).getD 0 0 < List.foldl min dist (List.take 0 (d :: ds))))
      = decide (d < dist) := by
    simp
  have hsucc : List.countP
      ((fun j => decide ((d :: ds).getD j 0 < List.foldl min dist (List.take j (d :: ds))))
        ∘ Nat.succ) (List.range ds.length)
      = List.countP
        (fun j => decide (ds.getD j 0 < List.foldl min (min dist d) (List.take j ds)))
        (List.range ds.length) := by
    apply List.countP_congr
    intro j _
    simp only [Function.comp_apply, List.getD_cons_succ, List.take_succ_cons, List.foldl_cons]
  rw [hsucc, h0]
  by_cases hd : d < dist <;> simp [hd, Nat.add_comm]

lemma rowGo_spec (ds : List ℚ) : ∀ (j : ℕ) (dist : ℚ) (idx w : ℕ),
    rowGo ds j dist idx w =
      (List.foldl min dist ds,
       if List.foldl min dist ds < dist then j + firstIdxOf (List.foldl min dist ds) ds
       else idx,
       w + strictImprovements dist ds) := by
  induction ds with
  | nil =>
    intro j dist idx w
    simp [rowGo, strictImprovements_nil]
  | cons d ds ih =>
    intro j dist idx w
    rw [rowGo]
    by_cases hd : d < dist
    · rw [if_pos hd, ih]
      have hmin : min dist d = d := min_eq_right hd.le
      have hfold : List.foldl min dist (d :: ds) = List.foldl min d ds := by
        rw [List.foldl_cons, hmin]
      simp only [Prod.mk.injEq]
      refine ⟨hfold.symm, ?_, ?_⟩
      · have hM : List.foldl min d ds ≤ d := foldl_min_le_init ds d
        rw [hfold]
        rw [if_pos (lt_of_le_of_lt hM hd)]
        by_cases hMd : List.foldl min d ds < d
        · rw [if_pos hMd]
          rw [firstIdxOf]
          rw [if_neg (by exact fun he => absurd he.symm (ne_of_lt hMd))]
          omega
        · have : List.foldl min d ds = d := le_antisymm hM (not_lt.mp hMd)
          rw [if_neg hMd, this]
          rw [firstIdxOf, if_pos rfl]
          omega
      · rw [strictImprovements_cons, if_pos hd, hmin]
        omega
    · rw [if_neg hd, ih]
      have hmin : min dist d = dist := min_eq_left (not_lt.mp hd)
      have hfold : List.foldl min dist (d :: ds) = List.foldl min dist ds := by
        rw [List.foldl_cons, hmin]
      simp only [Prod.mk.injEq]
      refine ⟨hfold.symm, ?_, ?_⟩
      · rw [hfold]
        by_cases hM : List.foldl min dist ds < dist
        · rw [if_pos hM, if_pos hM]
          have hdM : d ≠ List.foldl min dist ds := by
            intro he
            exact hd (he ▸ hM)
          rw [firstIdxOf, if_neg hdM]
          omega
        · rw [if_neg hM, if_neg hM]
      · rw [strictImprovements_cons, if_neg hd, hmin]
        omega

lemma calc_distanceD_proj (ms : List Metric) (T1 T2 : List Curve) (disp : ℕ) (tr : List ℕ) :
    calc_distanceD ms T1 T2 disp tr =
      (calcDist ms T1 T2,
       disp + ms.length * (T1.length * T2.length),
       tr ++ List.range' (disp + 1) (ms.length * (T1.length * T2.length))) := by
  rw [calc_distanceD_eq, calcDist_eq]

lemma rowLoop_eq (ms : List Metric) (t1 : List Curve) (T2l : List (List Curve)) :
    ∀ (j : ℕ) (dist : ℚ) (idx w : ℕ) (disp : ℕ) (tr : List ℕ),
    rowLoop ms t1 T2l j dist idx w disp tr =
      ((rowGo (T2l.map (calcDist ms t1)) j dist idx w).1,
       (rowGo (T2l.map (calcDist ms t1)) j dist idx w).2.1,
       (rowGo (T2l.map (calcDist ms t1)) j dist idx w).2.2,
       disp + ms.length * (t1.length * (T2l.map List.length).sum),
       tr ++ List.range' (disp + 1) (ms.length * (t1.length * (T2l.map List.length).sum))) := by
  induction T2l with
  | nil =>
    intro j dist idx w disp tr
    simp [rowLoop, rowGo]
  | cons t2 rest ih =>
    intro j dist idx w disp tr
    rw [rowLoop, calc_distanceD_proj]
    simp only [List.map_cons, List.sum_cons, rowGo]
    by_cases hd : calcDist ms t1 t2 < dist
    · rw [if_pos hd, if_pos hd, ih]
      simp only [Prod.mk.injEq]
      refine ⟨trivial, trivial, trivial, by ring, ?_⟩
      rw [List.append_assoc, range'_chunk']
      congr 2
      ring
    · rw [if_neg hd, if_neg hd, ih]
      simp only [Prod.mk.injEq]
      refine ⟨trivial, trivial, trivial, by ring, ?_⟩
      rw [List.append_assoc, range'_chunk']
      congr 2
      ring

lemma outerLoop_eq (ms : List Metric) (T1 T2 : List (List Curve)) :
    ∀ (disp : ℕ) (tr : List ℕ),
    outerLoop ms T1 T2 disp tr =
      (T1.map (fun t1 => (rowGo (T2.map (calcDist ms t1)) 0 99999 0 0).2.1),
       T1.map (fun t1 => (rowGo (T2.map (calcDist ms t1)) 0 99999 0 0).1),
       T1.map (fun t1 => (rowGo (T2.map (calcDist ms t1)) 0 99999 0 0).2.2),
       disp + ms.length * ((T1.map List.length).sum * (T2.map List.length).sum),
       tr ++ List.range' (disp + 1)
         (ms.length * ((T1.map List.length).sum * (T2.map List.length).sum))) := by
  induction T1 with
  | nil =>
    intro disp tr
    simp [outerLoop]
  | cons t1 rest ih =>
    intro disp tr
    rw [outerLoop]
    rw [rowLoop_eq, ih]
    simp only [List.map_cons, List.sum_cons, Prod.mk.injEq]
    refine ⟨trivial, trivial, trivial, by ring, ?_⟩
    rw [List.append_assoc, range'_chunk']
    congr 2
    ring

lemma ResampleFibers_length (n : ℕ) (tg : List (List Point)) :
    (ResampleFibers n tg).length = tg.length := by
  simp [ResampleFibers]

lemma map_length_ResampleFibers (n : ℕ) (tgs : List (List (List Point))) :
    (tgs.map (ResampleFibers n)).map List.length = tgs.map List.length := by
  rw [List.map_map]
  apply List.map_congr_left
  intro t _
  simp [ResampleFibers_length]

lemma isEmpty_false_of_ne_nil {α : Type} {l : List α} (h : l ≠ []) :
    l.isEmpty = false := by
  cases l with
  | nil => exact absurd rfl h
  | cons a l => rfl

lemma GenerateData_eq (s : TractDistanceFilter) (h : s.m_Metrics ≠ []) :
    GenerateData s =
      ({ s with
          m_Indices := (s.m_Tracts1.map (ResampleFibers s.m_NumPoints)).map (fun t1 =>
            (rowGo ((s.m_Tracts2.map (ResampleFibers s.m_NumPoints)).map
              (calcDist s.m_Metrics t1)) 0 99999 0 0).2.1),
          m_Distances := (s.m_Tracts1.map (ResampleFibers s.m_NumPoints)).map (fun t1 =>
            (rowGo ((s.m_Tracts2.map (ResampleFibers s.m_NumPoints)).map
              (calcDist s.m_Metrics t1)) 0 99999 0 0).1),
          writeCounts := (s.m_Tracts1.map (ResampleFibers s.m_NumPoints)).map (fun t1 =>
            (rowGo ((s.m_Tracts2.map (ResampleFibers s.m_NumPoints)).map
              (calcDist s.m_Metrics t1)) 0 99999 0 0).2.2),
          disp := s.m_Metrics.length *
            ((s.m_Tracts1.map List.length).sum * (s.m_Tracts2.map List.length).sum),
          dispTotal := s.m_Metrics.length *
            ((s.m_Tracts1.map List.length).sum * (s.m_Tracts2.map List.length).sum),
          dispTrace := List.range' 1 (s.m_Metrics.length *
            ((s.m_Tracts1.map List.length).sum * (s.m_Tracts2.map List.length).sum)) },
       none) := by
  rw [GenerateData]
  rw [isEmpty_false_of_ne_nil h]
  simp only [Bool.false_eq_true, if_false]
  rw [outerLoop_eq]
  simp only [map_length_ResampleFibers]
  congr 1
  · congr 1
    · omega
    · rw [Nat.mul_assoc]

lemma writeCols_length (pts : List Point) : ∀ (M : List Point) (j : ℕ),
    (writeCols M j pts).length = M.length := by
  induction pts with
  | nil => intro M j; rfl
  | cons p ps ih =>
    intro M j
    rw [writeCols, ih]
    simp [set_column]

lemma streamlineOf_length (n : ℕ) (pts : List Point) :
    (streamlineOf n pts).length = n := by
  rw [streamlineOf, writeCols_length, List.length_replicate]

lemma ResampleToNumPoints_length_le (n : ℕ) (t : List Point) :
    (ResampleToNumPoints n t).length ≤ n := by
  rw [ResampleToNumPoints]
  split
  · assumption
  · simp

lemma writeCols_getElem?_of_ge (pts : List Point) : ∀ (M : List Point) (j k : ℕ),
    j + pts.length ≤ k → (writeCols M j pts)[k]? = M[k]? := by
  induction pts with
  | nil => intro M j k _; rfl
  | cons p ps ih =>
    intro M j k hk
    simp only [List.length_cons] at hk
    rw [writeCols, ih _ (j + 1) k (by omega)]
    exact List.getElem?_set_ne (by omega)

lemma writeColsChecked_eq (pts : List Point) : ∀ (M : List Point) (j : ℕ),
    j + pts.length ≤ M.length →
      writeColsChecked M j pts = some (writeCols M j pts) := by
  induction pts with
  | nil => intro M j _; rfl
  | cons p ps ih =>
    intro M j hk
    simp only [List.length_cons] at hk
    rw [writeColsChecked, writeCols]
    rw [set_columnChecked, if_pos (by omega)]
    exact ih _ (j + 1) (by simp [set_column]; omega)

lemma midLoopF_nil (m : MetricF) (T2 : List Curve) (acc : Flt) :
    midLoopF m [] T2 acc = acc := rfl

lemma metricLoopF_nil_T1 (ms : List MetricF) : ∀ (T2 : List Curve) (acc : Flt),
    metricLoopF ms [] T2 acc = acc := by
  induction ms with
  | nil => intro T2 acc; rfl
  | cons m ms ih => intro T2 acc; rw [metricLoopF, midLoopF_nil]; exact ih T2 acc

lemma Flt_lt_nan_left (d : Flt) : Flt.lt Flt.nan d = false := by
  cases d <;> rfl

lemma calc_distanceF_nil_T1 (ms : List MetricF) (t2 : List Curve) :
    calc_distanceF ms [] t2 = Flt.nan := by
  rw [calc_distanceF, metricLoopF_nil_T1]
  simp [Flt.div]

lemma rowLoopF_nil_t1 (ms : List MetricF) (T2l : List (List Curve)) :
    ∀ (j : ℕ) (dist : Flt) (idx : ℕ),
    rowLoopF ms [] T2l j dist idx = (dist, idx) := by
  induction T2l with
  | nil => intro j dist idx; rfl
  | cons t2 rest ih =>
    intro j dist idx
    rw [rowLoopF, calc_distanceF_nil_T1, Flt_lt_nan_left]
    simp only [Bool.false_eq_true, if_false]
    exact ih (j + 1) dist idx

lemma map_const_replicate {α β : Type} (l : List α) (b : β) :
    l.map (fun _ => b) = List.replicate l.length b := List.map_const' l b

/-! ### Claim theorems -/

/-- C2: if the metric set is empty, `GenerateData` fails immediately with the
descriptive configuration error "No metric selected!" before any resampling
or comparison, and the object state — in particular the result sequences
`m_Indices` and `m_Distances` — is left untouched. -/
theorem generateData_empty_metrics_error (s : TractDistanceFilter)
    (h : s.m_Metrics = []) :
    GenerateData s = (s, some "No metric selected!") := by
  rw [GenerateData, h]
  rfl

/-- Witness for C2 at a concrete filter whose metric set is empty and whose
result fields hold junk values that are visibly preserved. -/
theorem generateData_empty_metrics_error_witness :
    sEmptyMetrics.m_Metrics = [] ∧
      GenerateData sEmptyMetrics = (sEmptyMetrics, some "No metric selected!") :=
  ⟨rfl, generateData_empty_metrics_error sEmptyMetrics rfl⟩

/-- C5: every output curve of the Resampler has exactly `targetPointCount`
columns; columns at or beyond the (resampled) tract's point count stay at the
zero vector; resampling the 1-point tract `[(1,1,1)]` to length 3 yields
`[(1,1,1),(0,0,0),(0,0,0)]`; an empty tract yields an all-zero curve. -/
theorem resampleFibers_fixed_size_zero_pad :
    (∀ (n : ℕ) (tg : List (List Point)) (c : Curve),
        c ∈ ResampleFibers n tg → c.length = n) ∧
    (∀ (n : ℕ) (t : List Point) (j : ℕ),
        (ResampleToNumPoints n t).length ≤ j → j < n →
          (streamlineOf n (ResampleToNumPoints n t))[j]? = some zeroPoint) ∧
    ResampleFibers 3 [[((1:ℚ), (1:ℚ), (1:ℚ))]]
      = [[((1:ℚ), (1:ℚ), (1:ℚ)), zeroPoint, zeroPoint]] ∧
    (∀ n : ℕ, ResampleFibers n [[]] = [List.replicate n zeroPoint]) := by
  refine ⟨?_, ?_, ?_, ?_⟩
  · intro n tg c hc
    rcases List.mem_map.mp hc with ⟨t, _, rfl⟩
    exact streamlineOf_length n _
  · intro n t j hle hlt
    rw [streamlineOf, writeCols_getElem?_of_ge _ _ _ _ (by omega)]
    rw [List.getElem?_replicate, if_pos hlt]
  · norm_num [ResampleFibers, ResampleToNumPoints, streamlineOf, writeCols,
      set_column, zeroPoint, List.replicate]
  · intro n
    simp [ResampleFibers, ResampleToNumPoints, streamlineOf, writeCols]

/-- Witness for C5: the zero-padding clause applied to the literal 1-point
tract at target length 3, column 1. -/
theorem resampleFibers_fixed_size_zero_pad_witness :
    ((ResampleToNumPoints 3 [((1:ℚ), (1:ℚ), (1:ℚ))]).length ≤ 1 ∧ 1 < 3) ∧
      (streamlineOf 3 (ResampleToNumPoints 3 [((1:ℚ), (1:ℚ), (1:ℚ))]))[1]?
        = some zeroPoint :=
  ⟨⟨by norm_num [ResampleToNumPoints], by norm_num⟩,
   resampleFibers_fixed_size_zero_pad.2.1 3 [((1:ℚ), (1:ℚ), (1:ℚ))] 1
     (by norm_num [ResampleToNumPoints]) (by norm_num)⟩

/-- C8: the Resampler's column writes are always in bounds: running the same
loop with every `set_column` bounds-checked never fails and agrees with the
unchecked pipeline, for every target width and every tractogram. -/
theorem resampleFibersChecked_in_bounds (n : ℕ) (tg : List (List Point)) :
    ResampleFibersChecked n tg = some (ResampleFibers n tg) := by
  induction tg with
  | nil => rfl
  | cons t ts ih =>
    rw [ResampleFibersChecked]
    rw [writeColsChecked_eq (ResampleToNumPoints n t) (List.replicate n zeroPoint) 0
      (by simpa using ResampleToNumPoints_length_le n t)]
    rw [ih]
    simp [ResampleFibers, streamlineOf]

/-- C9: the aggregate distance is directionally asymmetric: there are curve
lists `A`, `B` with different sizes and a metric for which
`calc_distance(A, B)` differs from `calc_distance(B, A)`. -/
theorem calc_distance_asymmetric :
    ∃ (m : Metric) (A B : List Curve), A.length ≠ B.length ∧
      calcDist [m] A B ≠ calcDist [m] B A := by
  refine ⟨mLen, [[]], [[], [zeroPoint]], by norm_num, ?_⟩
  have h1 : calcDist [mLen] [[]] [[], [zeroPoint]] = 0 := by
    norm_num [mLen, calcDist, calc_distanceD, metricLoop, midLoop, innerLoop]
  have h2 : calcDist [mLen] [[], [zeroPoint]] [[]] = 1 / 2 := by
    norm_num [mLen, calcDist, calc_distanceD, metricLoop, midLoop, innerLoop]
  rw [h1, h2]
  norm_num

/-- C10: for a bundle whose resampled curve list is empty, `calc_distance`
accumulates nothing and divides 0 by 0, which in float arithmetic is NaN; the
NaN never satisfies the strict-less-than update, so the bundle's result entry
keeps its initial values (distance 99999, index 0). -/
theorem empty_bundle_nan_row_untouched :
    (∀ (ms : List MetricF) (t2 : List Curve),
        metricLoopF ms [] t2 (Flt.val 0) = Flt.val 0 ∧
        Flt.div (Flt.val 0) (Flt.val 0) = Flt.nan ∧
        calc_distanceF ms [] t2 = Flt.nan) ∧
    (∀ (ms : List MetricF) (T2l : List (List Curve)),
        rowLoopF ms [] T2l 0 (Flt.val 99999) 0 = (Flt.val 99999, 0)) := by
  constructor
  · intro ms t2
    exact ⟨metricLoopF_nil_T1 ms t2 _, by simp [Flt.div], calc_distanceF_nil_T1 ms t2⟩
  · intro ms T2l
    exact rowLoopF_nil_t1 ms T2l 0 _ 0

/-- C1 counterexample: with one metric returning the constant 100000 and the
same single curve on both sides, `calc_distance` computes 99999 (the inner
minimum is initialized to 99999, not +INF), while the spec's formula — the
per-curve true minimum over B, summed and divided by `|A|·|metrics|` — gives
100000, so the claimed equality fails as stated. -/
theorem calc_distance_ne_specAggregate :
    calcDist [mBig] [cZero] [cZero] = 99999 ∧
    specAggregate [mBig] [cZero] [cZero] = 100000 ∧
    calcDist [mBig] [cZero] [cZero] ≠ specAggregate [mBig] [cZero] [cZero] := by
  have h1 : calcDist [mBig] [cZero] [cZero] = 99999 := by
    norm_num [mBig, calcDist, calc_distanceD, metricLoop, midLoop, innerLoop]
  have h2 : specAggregate [mBig] [cZero] [cZero] = 100000 := by
    norm_num [mBig, specAggregate, minQ]
  refine ⟨h1, h2, ?_⟩
  rw [h1, h2]
  norm_num

/-- C1 (amended): for non-empty metric set and non-empty curve lists `A`, `B`,
`calc_distance` equals, for each metric and each curve of `A`, the minimum
over curves of `B` of the metric's distance capped above at the
initialization sentinel 99999 (`min 99999 ·`), summed across all curves of
`A` and all metrics, then divided by `|A| · |metrics|` — the size of `B` does
not appear in the denominator. -/
theorem calc_distance_capped_formula (ms : List Metric) (A B : List Curve)
    (hm : ms ≠ []) (hA : A ≠ []) (hB : B ≠ []) :
    calcDist ms A B =
      ((ms.map (fun m => (A.map (fun a =>
          min 99999 (minQ (B.map (fun b => (m a b).1))))).sum)).sum)
        / ((A.length : ℚ) * (ms.length : ℚ)) := by
  rw [calcDist_eq]
  congr 1
  congr 1
  apply List.map_congr_left
  intro m _
  congr 1
  apply List.map_congr_left
  intro a _
  exact foldl_min_eq_minQ _ (fun hmap => hB (List.map_eq_nil_iff.mp hmap)) _

/-- Witness for C1 (amended) at one constant metric and singleton curve
lists. -/
theorem calc_distance_capped_formula_witness :
    (([mBig] : List Metric) ≠ [] ∧ ([cZero] : List Curve) ≠ []
        ∧ ([cZero] : List Curve) ≠ []) ∧
      calcDist [mBig] [cZero] [cZero] =
        (([mBig].map (fun m => ([cZero].map (fun a =>
            min 99999 (minQ ([cZero].map (fun b => (m a b).1))))).sum)).sum)
          / ((([cZero] : List Curve).length : ℚ) * (([mBig] : List Metric).length : ℚ)) :=
  ⟨⟨List.cons_ne_nil _ _, List.cons_ne_nil _ _, List.cons_ne_nil _ _⟩,
   calc_distance_capped_formula [mBig] [cZero] [cZero]
     (List.cons_ne_nil _ _) (List.cons_ne_nil _ _) (List.cons_ne_nil _ _)⟩

/-- C7 counterexample: the running minimum starts at 99999, not +INF: with a
metric returning the constant 123456 and a single candidate curve, the inner
loop produces 99999 while the true minimum over `curvesB` is 123456, so the
per-curve contribution is not the true minimum when every metric value
exceeds the sentinel. -/
theorem innerLoop_cap_counterexample :
    (innerLoop mBig2 cZero [cZero] 99999 0 []).1 = 99999 ∧
    minQ ([cZero].map (fun f2 => (mBig2 cZero f2).1)) = 123456 ∧
    (innerLoop mBig2 cZero [cZero] 99999 0 []).1
      ≠ minQ ([cZero].map (fun f2 => (mBig2 cZero f2).1)) := by
  have h1 : (innerLoop mBig2 cZero [cZero] 99999 0 []).1 = 99999 := by
    norm_num [mBig2, innerLoop]
  have h2 : minQ ([cZero].map (fun f2 => (mBig2 cZero f2).1)) = 123456 := by
    norm_num [mBig2, minQ]
  refine ⟨h1, h2, ?_⟩
  rw [h1, h2]
  norm_num

/-- C7 (amended): the running minimum starts at the finite sentinel 99999 (not
+INF), so for every non-empty `curvesB` the per-curve contribution equals the
minimum over `curvesB` capped above at 99999 — the true minimum exactly when
that minimum does not exceed 99999. -/
theorem innerLoop_min_capped (m : Metric) (f1 : Curve) (T2 : List Curve)
    (h : T2 ≠ []) (disp : ℕ) (tr : List ℕ) :
    (innerLoop m f1 T2 99999 disp tr).1
      = min 99999 (minQ (T2.map (fun f2 => (m f1 f2).1))) := by
  rw [innerLoop_eq]
  exact foldl_min_eq_minQ _ (fun hmap => h (List.map_eq_nil_iff.mp hmap)) _

/-- Witness for C7 (amended) at the constant-123456 metric and a one-curve
`curvesB`. -/
theorem innerLoop_min_capped_witness :
    (([cZero] : List Curve) ≠ []) ∧
      (innerLoop mBig2 cZero [cZero] 99999 0 []).1
        = min 99999 (minQ ([cZero].map (fun f2 => (mBig2 cZero f2).1))) :=
  ⟨List.cons_ne_nil _ _,
   innerLoop_min_capped mBig2 cZero [cZero] (List.cons_ne_nil _ _) 0 []⟩

/-- C4: the matcher's inner search uses a strictly-less-than update in
sequence order, so for every non-empty competitor list the distance slot ends
at the minimum aggregate distance and the index slot at the FIRST position
attaining it: later bundles at an equal distance never overwrite. -/
theorem generateData_first_argmin_wins (ms : List Metric) (t1 : List Curve)
    (T2l : List (List Curve)) (h : T2l ≠ []) :
    ∃ mv : ℚ, mv ∈ T2l.map (calcDist ms t1) ∧
      (∀ d ∈ T2l.map (calcDist ms t1), mv ≤ d) ∧
      (rowLoop ms t1 T2l 0 99999 0 0 0 []).1 = mv ∧
      (rowLoop ms t1 T2l 0 99999 0 0 0 []).2.1
        = firstIdxOf mv (T2l.map (calcDist ms t1)) := by
  have hne : T2l.map (calcDist ms t1) ≠ [] :=
    fun hnil => h (List.map_eq_nil_iff.mp hnil)
  have hrow1 : (rowLoop ms t1 T2l 0 99999 0 0 0 []).1
      = List.foldl min 99999 (T2l.map (calcDist ms t1)) := by
    rw [rowLoop_eq, rowGo_spec]
  have hrow2 : (rowLoop ms t1 T2l 0 99999 0 0 0 []).2.1
      = if List.foldl min 99999 (T2l.map (calcDist ms t1)) < 99999 then
          0 + firstIdxOf (List.foldl min 99999 (T2l.map (calcDist ms t1)))
            (T2l.map (calcDist ms t1))
        else 0 := by
    rw [rowLoop_eq, rowGo_spec]
  by_cases hM : List.foldl min 99999 (T2l.map (calcDist ms t1)) < 99999
  · refine ⟨List.foldl min 99999 (T2l.map (calcDist ms t1)), ?_, ?_, hrow1, ?_⟩
    · rcases foldl_min_eq_init_or_mem (T2l.map (calcDist ms t1)) 99999 with h1 | h1
      · rw [h1] at hM
        exact absurd hM (lt_irrefl _)
      · exact h1
    · intro d hd
      exact foldl_min_le_mem _ 99999 d hd
    · rw [hrow2, if_pos hM, Nat.zero_add]
  · have hMeq : List.foldl min 99999 (T2l.map (calcDist ms t1)) = 99999 :=
      le_antisymm (foldl_min_le_init _ 99999) (not_lt.mp hM)
    have hall : ∀ d ∈ T2l.map (calcDist ms t1), d = 99999 := by
      intro d hd
      have hle : d ≤ 99999 := by
        rcases List.mem_map.mp hd with ⟨t2, _, rfl⟩
        exact calcDist_le ms t1 t2
      have hge : (99999 : ℚ) ≤ d := hMeq ▸ foldl_min_le_mem _ 99999 d hd
      exact le_antisymm hle hge
    refine ⟨99999, ?_, ?_, by rw [hrow1, hMeq], ?_⟩
    · cases hcase : T2l.map (calcDist ms t1) with
      | nil => exact absurd hcase hne
      | cons d0 ds' =>
        have hd0 : d0 = 99999 := hall d0 (hcase ▸ List.mem_cons_self d0 ds')
        rw [← hd0]
        exact List.mem_cons_self d0 ds'
    · intro d hd
      rw [hall d hd]
    · rw [hrow2, if_neg hM]
      cases hcase : T2l.map (calcDist ms t1) with
      | nil => exact absurd hcase hne
      | cons d0 ds' =>
        have hd0 : d0 = 99999 := hall d0 (hcase ▸ List.mem_cons_self d0 ds')
        rw [firstIdxOf, if_pos hd0]

/-- Witness for C4 at one metric and a single competitor bundle. -/
theorem generateData_first_argmin_wins_witness :
    (([[cZero]] : List (List Curve)) ≠ []) ∧
      (∃ mv : ℚ, mv ∈ [[cZero]].map (calcDist [mHead] [cZero]) ∧
        (∀ d ∈ [[cZero]].map (calcDist [mHead] [cZero]), mv ≤ d) ∧
        (rowLoop [mHead] [cZero] [[cZero]] 0 99999 0 0 0 []).1 = mv ∧
        (rowLoop [mHead] [cZero] [[cZero]] 0 99999 0 0 0 []).2.1
          = firstIdxOf mv ([[cZero]].map (calcDist [mHead] [cZero]))) :=
  ⟨List.cons_ne_nil _ _,
   generateData_first_argmin_wins [mHead] [cZero] [[cZero]] (List.cons_ne_nil _ _)⟩

/-- C6 counterexample: with one metric and two competitor bundles at
aggregate distances 5 then 3, the result slot of bundle 0 is overwritten
twice (once per strict improvement), not exactly once. -/
theorem writeCounts_not_exactly_once :
    (GenerateData sTwoWrites).1.writeCounts = [2] ∧ (2 : ℕ) ≠ 1 := by
  constructor
  · norm_num [sTwoWrites, mHead, GenerateData, outerLoop, rowLoop, calc_distanceD,
      metricLoop, midLoop, innerLoop, ResampleFibers, ResampleToNumPoints,
      streamlineOf, writeCols, set_column, zeroPoint]
  · norm_num

/-- C6 (amended): before the search each distance slot is initialized to the
finite sentinel 99999 and each index slot to the value-initialized 0 (with no
competitor bundles they stay there); each slot is then overwritten once per
strict improvement of the running minimum over `j` — zero or more times, not
exactly once — and ends at the best value `min(99999, min_j d_ij)`. -/
theorem generateData_overwrite_characterization (s : TractDistanceFilter)
    (h : s.m_Metrics ≠ []) :
    (s.m_Tracts2 = [] →
      (GenerateData s).1.m_Distances
          = List.replicate s.m_Tracts1.length (99999 : ℚ) ∧
        (GenerateData s).1.m_Indices = List.replicate s.m_Tracts1.length 0) ∧
    (GenerateData s).1.m_Distances
      = (s.m_Tracts1.map (ResampleFibers s.m_NumPoints)).map (fun t1 =>
          List.foldl min 99999 ((s.m_Tracts2.map (ResampleFibers s.m_NumPoints)).map
            (calcDist s.m_Metrics t1))) ∧
    (GenerateData s).1.writeCounts
      = (s.m_Tracts1.map (ResampleFibers s.m_NumPoints)).map (fun t1 =>
          strictImprovements 99999 ((s.m_Tracts2.map (ResampleFibers s.m_NumPoints)).map
            (calcDist s.m_Metrics t1))) := by
  rw [GenerateData_eq s h]
  refine ⟨?_, ?_, ?_⟩
  · intro h2
    rw [h2]
    constructor
    · show (s.m_Tracts1.map (ResampleFibers s.m_NumPoints)).map (fun t1 =>
        (rowGo (([] : List (List (List Point))).map (ResampleFibers s.m_NumPoints)
          |>.map (calcDist s.m_Metrics t1)) 0 99999 0 0).1)
        = List.replicate s.m_Tracts1.length (99999 : ℚ)
      simp only [List.map_nil, rowGo]
      rw [map_const_replicate, List.length_map]
    · show (s.m_Tracts1.map (ResampleFibers s.m_NumPoints)).map (fun t1 =>
        (rowGo (([] : List (List (List Point))).map (ResampleFibers s.m_NumPoints)
          |>.map (calcDist s.m_Metrics t1)) 0 99999 0 0).2.1)
        = List.replicate s.m_Tracts1.length 0
      simp only [List.map_nil, rowGo]
      rw [map_const_replicate, List.length_map]
  · show (s.m_Tracts1.map (ResampleFibers s.m_NumPoints)).map (fun t1 =>
      (rowGo ((s.m_Tracts2.map (ResampleFibers s.m_NumPoints)).map
        (calcDist s.m_Metrics t1)) 0 99999 0 0).1) = _
    apply List.map_congr_left
    intro t1 _
    rw [rowGo_spec]
  · show (s.m_Tracts1.map (ResampleFibers s.m_NumPoints)).map (fun t1 =>
      (rowGo ((s.m_Tracts2.map (ResampleFibers s.m_NumPoints)).map
        (calcDist s.m_Metrics t1)) 0 99999 0 0).2.2) = _
    apply List.map_congr_left
    intro t1 _
    rw [rowGo_spec]
    exact Nat.zero_add _

/-- Witness for C6 (amended): the overwrite-count characterization at the
two-competitor filter. -/
theorem generateData_overwrite_characterization_witness :
    sTwoWrites.m_Metrics ≠ [] ∧
      (GenerateData sTwoWrites).1.writeCounts
        = (sTwoWrites.m_Tracts1.map (ResampleFibers sTwoWrites.m_NumPoints)).map (fun t1 =>
            strictImprovements 99999
              ((sTwoWrites.m_Tracts2.map (ResampleFibers sTwoWrites.m_NumPoints)).map
                (calcDist sTwoWrites.m_Metrics t1))) :=
  ⟨List.cons_ne_nil _ _,
   (generateData_overwrite_characterization sTwoWrites (List.cons_ne_nil _ _)).2.2⟩

/-- C3: the progress counter is incremented exactly once per innermost
metric/curveA/curveB comparison; after `GenerateData` it equals the restart
bound `|metrics| · totalCurves1 · totalCurves2`; its recorded trace is
exactly `1, 2, …, total`, hence strictly increasing and never exceeding the
total during execution. -/
theorem generateData_progress_invariant (s : TractDistanceFilter)
    (h : s.m_Metrics ≠ []) :
    (∀ (ms : List Metric) (T1c T2c : List Curve) (d0 : ℕ) (tr : List ℕ),
        (calc_distanceD ms T1c T2c d0 tr).2.1
          = d0 + ms.length * (T1c.length * T2c.length)) ∧
    (GenerateData s).1.dispTotal
      = s.m_Metrics.length
          * ((s.m_Tracts1.map List.length).sum * (s.m_Tracts2.map List.length).sum) ∧
    (GenerateData s).1.disp = (GenerateData s).1.dispTotal ∧
    (GenerateData s).1.dispTrace = List.range' 1 ((GenerateData s).1.dispTotal) ∧
    (∀ v ∈ (GenerateData s).1.dispTrace, v ≤ (GenerateData s).1.dispTotal) ∧
    List.Chain' (· < ·) (GenerateData s).1.dispTrace := by
  refine ⟨?_, ?_, ?_, ?_, ?_, ?_⟩
  · intro ms T1c T2c d0 tr
    rw [calc_distanceD_proj]
  · rw [GenerateData_eq s h]
  · rw [GenerateData_eq s h]
  · rw [GenerateData_eq s h]
  · rw [GenerateData_eq s h]
    intro v hv
    have hb := List.mem_range'_1.mp (hv :
      v ∈ List.range' 1 (s.m_Metrics.length
        * ((s.m_Tracts1.map List.length).sum * (s.m_Tracts2.map List.length).sum)))
    show v ≤ s.m_Metrics.length
      * ((s.m_Tracts1.map List.length).sum * (s.m_Tracts2.map List.length).sum)
    omega
  · rw [GenerateData_eq s h]
    exact List.Pairwise.chain' (List.pairwise_lt_range' 1 _)

/-- Witness for C3: the final-value invariant at a concrete one-metric,
one-bundle-each filter. -/
theorem generateData_progress_invariant_witness :
    sProgress.m_Metrics ≠ [] ∧
      (GenerateData sProgress).1.disp = (GenerateData sProgress).1.dispTotal :=
  ⟨List.cons_ne_nil _ _,
   (generateData_progress_invariant sProgress (List.cons_ne_nil _ _)).2.2.1⟩
